import Mathlib

/-!
# Audio-tweet ingestion, deletion and retrieval

A shallow embedding of `src/audioValidator.js` (`validateAudioFile`) and of the
three audio-related route handlers of `src/tweets.js` (`POST /audio`,
`DELETE /:tweetId`, `GET /audio/:filename`).

* JavaScript numbers are modelled by `JsNum`: the finite values are rationals
  (every finite double is one), next to `NaN` and the two infinities.
  Comparison and `Math.round` are exact on doubles, so nothing is lost.
* The file system is the list of paths that currently exist; the record store
  is the list of stored tweets.
* What the outside world decides (the callback arguments of `ffprobe`, whether
  `save`, `populate`, `findById`, `findByIdAndDelete` or `unlinkSync` throw,
  what `res.sendFile` does with a path) is an explicit `Effects` argument.
-/

namespace TwitterClone

/-! ## JavaScript numbers -/

/-- A JavaScript Number value. -/
inductive JsNum where
  | nan : JsNum
  | negInf : JsNum
  | posInf : JsNum
  | fin (q : ℚ) : JsNum
  deriving DecidableEq

/-- JavaScript `a > b`. Any comparison with `NaN` is false. -/
def JsNum.gt : JsNum → JsNum → Bool
  | .nan, _ => false
  | _, .nan => false
  | .posInf, .posInf => false
  | .posInf, _ => true
  | .negInf, _ => false
  | .fin _, .posInf => false
  | .fin _, .negInf => true
  | .fin a, .fin b => decide (b < a)

/-- JavaScript `a <= b`. Any comparison with `NaN` is false. -/
def JsNum.le : JsNum → JsNum → Bool
  | .nan, _ => false
  | _, .nan => false
  | .negInf, _ => true
  | .posInf, .posInf => true
  | .posInf, _ => false
  | .fin _, .posInf => true
  | .fin _, .negInf => false
  | .fin a, .fin b => decide (a ≤ b)

/-- JavaScript `Math.round`: the closest integer, a tie going towards `+∞`;
`NaN` and the infinities are returned as they are. -/
def Math.round : JsNum → JsNum
  | .fin q => .fin (⌊q + 1 / 2⌋ : ℤ)
  | x => x

/-! ## `src/audioValidator.js` -/

/-- A JavaScript `Error` object, reduced to its `message`. -/
structure JsError where
  message : String
  deriving DecidableEq

/-- The fields of `metadata.format` that the validator reads. -/
structure Format where
  duration : JsNum
  size : JsNum
  format_name : String
  deriving DecidableEq

/-- The metadata object handed to the `ffprobe` callback. -/
structure Metadata where
  format : Format
  deriving DecidableEq

/-- The two arguments `(err, metadata)` with which `ffmpeg.ffprobe` calls back. -/
structure ProbeCallback where
  err : Option JsError
  metadata : Metadata
  deriving DecidableEq

/-- The object `validateAudioFile` resolves with. -/
structure AudioInfo where
  duration : JsNum
  size : JsNum
  mimeType : String
  deriving DecidableEq

/-- The body of the `ffprobe` callback inside `validateAudioFile`:
`Except.error` is `reject(...)`, `Except.ok` is `resolve(...)`. -/
def validateCallback (cb : ProbeCallback) : Except JsError AudioInfo :=
  match cb.err with
  | some _ => .error ⟨"Invalid audio file"⟩
  | none =>
    let duration := cb.metadata.format.duration
    let size := cb.metadata.format.size
    if JsNum.gt duration (.fin 300) then
      .error ⟨"Audio duration cannot exceed 5 minutes"⟩
    else if JsNum.gt size (.fin (100 * 1024 * 1024)) then
      .error ⟨"Audio file size cannot exceed 100MB"⟩
    else
      .ok { duration := Math.round duration, size := size,
            mimeType := cb.metadata.format.format_name }

/-- The function `validateAudioFile(filePath)`: probe the path, then decide.
`ffprobe` gives the callback arguments the external tool produces for a path. -/
def validateAudioFile (ffprobe : String → ProbeCallback) (filePath : String) :
    Except JsError AudioInfo :=
  validateCallback (ffprobe filePath)

/-! ## Node's `path.join` (POSIX flavour)

`tweets.js` builds storage paths with `path.join`. The library is modelled on
character lists: the arguments that are not empty are glued with `/` and the
result is normalised segment by segment, as `path.posix.normalize` does. -/

/-- Cut a path at every `/`; `"a//b"` gives `a`, the empty segment and `b`. -/
def splitSlash : List Char → List (List Char)
  | [] => [[]]
  | c :: cs =>
    if c = '/' then [] :: splitSlash cs
    else
      match splitSlash cs with
      | [] => [[c]]
      | s :: ss => (c :: s) :: ss

/-- One segment of `normalizeString`: empty and `.` segments are skipped, `..`
removes the segment before it (or is kept when there is none to remove and the
path is relative), any other segment is appended. -/
def normalizeStep (allowAboveRoot : Bool) (res : List (List Char)) (seg : List Char) :
    List (List Char) :=
  if seg = [] ∨ seg = ['.'] then res
  else if seg = ['.', '.'] then
    if res = [] ∨ res.getLast? = some ['.', '.'] then
      if allowAboveRoot then res ++ [seg] else res
    else res.dropLast
  else res ++ [seg]

/-- The helper `normalizeString` of Node's `path` module, as a list of segments. -/
def normalizeString (path : List Char) (allowAboveRoot : Bool) : List (List Char) :=
  (splitSlash path).foldl (normalizeStep allowAboveRoot) []

/-- Glue segments with `/`. -/
def glue : List (List Char) → List Char
  | [] => []
  | [s] => s
  | s :: t :: rest => s ++ '/' :: glue (t :: rest)

/-- The function `path.posix.normalize`. -/
def normalize (path : List Char) : List Char :=
  if path = [] then ['.']
  else
    let isAbsolute : Bool := path.head? = some '/'
    let trailingSeparator : Bool := path.getLast? = some '/'
    let body := glue (normalizeString path (!isAbsolute))
    if body = [] then
      if isAbsolute then ['/'] else if trailingSeparator then ['.', '/'] else ['.']
    else
      (if isAbsolute then ['/'] else []) ++ body ++ (if trailingSeparator then ['/'] else [])

/-- The function `path.join(...args)`: empty arguments are dropped, the others
are glued with `/` and the result normalised; no argument left gives `"."`. -/
def path.join (args : List String) : String :=
  match (args.filter (fun a => a ≠ "")).map String.data with
  | [] => "."
  | joined => String.mk (normalize (glue joined))

/-! ## The two stores -/

/-- The `audioFile` sub-document of a tweet. -/
structure AudioFile where
  url : String
  duration : JsNum
  size : JsNum
  mimeType : String
  deriving DecidableEq

/-- A tweet document, with the fields the audio handlers set or read. Object
ids are modelled by their `toString()`. -/
structure Tweet where
  _id : String
  content : String
  author : String
  audioFile : Option AudioFile
  isAudioTweet : Bool
  deriving DecidableEq

/-- File storage (the paths that exist) and the record store (the tweets). -/
structure World where
  files : List String
  tweets : List Tweet
  deriving DecidableEq

/-- The call `fs.existsSync(p)`. -/
def World.existsSync (w : World) (p : String) : Bool := decide (p ∈ w.files)

/-- The effect of an `fs.unlinkSync(p)` that did not throw. -/
def World.unlinked (w : World) (p : String) : World :=
  { w with files := w.files.filter (fun q => q ≠ p) }

/-- The effect of a `tweet.save()` that did not throw, for a new document. -/
def World.saved (w : World) (t : Tweet) : World :=
  { w with tweets := w.tweets ++ [t] }

/-- The call `Tweet.findById(id)` when it does not throw. -/
def World.findById (w : World) (id : String) : Option Tweet :=
  w.tweets.find? (fun t => t._id = id)

/-- The effect of a `Tweet.findByIdAndDelete(id)` that did not throw. -/
def World.deleted (w : World) (id : String) : World :=
  { w with tweets := w.tweets.filter (fun t => t._id ≠ id) }

/-! ## `src/tweets.js` -/

/-- The object `req.file` set by the upload middleware. -/
structure UploadedFile where
  path : String
  filename : String
  deriving DecidableEq

/-- A request that passed the `auth` middleware: `req.user._id` is set. -/
structure AuthedRequest where
  userId : String
  tweetId : String
  content : Option String
  file : Option UploadedFile
  deriving DecidableEq

/-- A request to the open route `GET /audio/:filename`: whatever identity or
credentials came with it, the other headers (`Range`, `If-None-Match`, ...,
which `res.sendFile` reads), and the route parameter. -/
structure Request where
  user : Option String
  authorization : Option String
  headers : List (String × String)
  filename : String
  deriving DecidableEq

/-- A response body: a JSON message, a tweet, the content of a file, or the
page Express writes for an error that was passed on to it. -/
inductive Body where
  | message (m : String) : Body
  | tweet (t : Tweet) : Body
  | file (path : String) : Body
  | errorPage : Body
  deriving DecidableEq

/-- How a handler run ends: it sent a response, or an exception left the
handler before any response was sent. -/
inductive Outcome where
  | responded (status : Nat) (body : Body) : Outcome
  | uncaught (e : JsError) : Outcome
  deriving DecidableEq

/-- What the outside world decides during one request. `none` means that the
operation did not throw. `sendFile` is what Express's `res.sendFile` does with
a path and the request's headers: it has rules of its own and need not serve. -/
structure Effects where
  ffprobe : String → ProbeCallback
  save : Tweet → Option JsError
  populate : Tweet → Option JsError
  findById : String → Option JsError
  findByIdAndDelete : String → Option JsError
  unlinkSync : String → Option JsError
  sendFile : String → List (String × String) → Outcome
  newId : String
  __dirname : String

/-- The expression `error.message || 'Server error'`. -/
def messageOr (e : JsError) : String :=
  if e.message = "" then "Server error" else e.message

/-- The document built by `new Tweet(...)` in `POST /audio`. -/
def newAudioTweet (fx : Effects) (req : AuthedRequest) (file : UploadedFile)
    (audioInfo : AudioInfo) : Tweet :=
  { _id := fx.newId
    content := req.content.getD ""
    author := req.userId
    audioFile := some { url := "/uploads/audio/" ++ file.filename
                        duration := audioInfo.duration
                        size := audioInfo.size
                        mimeType := audioInfo.mimeType }
    isAudioTweet := true }

/-- The `try` block of `POST /audio` once `req.file` is known to be set: the
state it leaves, and either the response it sent or the error it threw. -/
def postAudioTry (fx : Effects) (w : World) (req : AuthedRequest) (file : UploadedFile) :
    World × Except JsError Outcome :=
  match validateAudioFile fx.ffprobe file.path with
  | .error e => (w, .error e)
  | .ok audioInfo =>
    let tweet := newAudioTweet fx req file audioInfo
    match fx.save tweet with
    | some e => (w, .error e)
    | none =>
      match fx.populate tweet with
      | some e => (w.saved tweet, .error e)
      | none => (w.saved tweet, .ok (.responded 201 (.tweet tweet)))

/-- The `catch` block of `POST /audio`. -/
def postAudioCatch (fx : Effects) (w : World) (file : UploadedFile) (error : JsError) :
    World × Outcome :=
  if w.existsSync file.path then
    match fx.unlinkSync file.path with
    | some thrown => (w, .uncaught thrown)
    | none => (w.unlinked file.path, .responded 400 (.message (messageOr error)))
  else
    (w, .responded 400 (.message (messageOr error)))

/-- The handler of `POST /audio`. -/
def postAudio (fx : Effects) (w : World) (req : AuthedRequest) : World × Outcome :=
  match req.file with
  | none => (w, .responded 400 (.message "No audio file uploaded"))
  | some file =>
    match postAudioTry fx w req file with
    | (w1, .ok out) => (w1, out)
    | (w1, .error e) => postAudioCatch fx w1 file e

/-- The file removal of `DELETE /:tweetId`: the state it leaves, or the error
`unlinkSync` threw. -/
def deleteAudioFile (fx : Effects) (w : World) (tweet : Tweet) : Except JsError World :=
  match tweet.audioFile with
  | none => .ok w
  | some audioFile =>
    if audioFile.url = "" then .ok w
    else
      let filePath := path.join [fx.__dirname, "..", "..", audioFile.url]
      if w.existsSync filePath then
        match fx.unlinkSync filePath with
        | some e => .error e
        | none => .ok (w.unlinked filePath)
      else .ok w

/-- The handler of `DELETE /:tweetId`. Every exception is caught and answered
with status 500. -/
def deleteTweet (fx : Effects) (w : World) (req : AuthedRequest) : World × Outcome :=
  match fx.findById req.tweetId with
  | some _ => (w, .responded 500 (.message "Server error"))
  | none =>
    match w.findById req.tweetId with
    | none => (w, .responded 404 (.message "Tweet not found"))
    | some tweet =>
      if tweet.author ≠ req.userId then
        (w, .responded 403 (.message "Not authorized to delete this tweet"))
      else
        match deleteAudioFile fx w tweet with
        | .error _ => (w, .responded 500 (.message "Server error"))
        | .ok w1 =>
          match fx.findByIdAndDelete req.tweetId with
          | some _ => (w1, .responded 500 (.message "Server error"))
          | none => (w1.deleted req.tweetId, .responded 200 (.message "Tweet deleted successfully"))

/-- The handler of `GET /audio/:filename`. It has no middleware in front. -/
def getAudio (fx : Effects) (w : World) (req : Request) : Outcome :=
  let filePath := path.join [fx.__dirname, "..", "..", "uploads", "audio", req.filename]
  if w.existsSync filePath then fx.sendFile filePath req.headers
  else .responded 404 (.message "Audio file not found")

/-! ## Sample runs -/

/-- The sample probe used in the scenarios: it reports the given format for
every path and no error. -/
def probeOk (duration size : JsNum) (name : String) : String → ProbeCallback :=
  fun _ => ⟨none, ⟨⟨duration, size, name⟩⟩⟩

/-- Express's `res.sendFile(path)` with no options, as far as the sample runs
need it: a path that is not absolute makes it throw; with the default dotfiles
policy a path whose last segment is a dot followed by more is not served, the
error goes to Express and is answered 404; any other path of a regular file is
sent. -/
def expressSendFile (path : String) (_headers : List (String × String)) : Outcome :=
  if path.data.head? ≠ some '/' then
    .uncaught ⟨"path must be absolute or specify root to res.sendFile"⟩
  else
    match (splitSlash path.data).getLast? with
    | some ('.' :: _ :: _) => .responded 404 .errorPage
    | _ => .responded 200 (.file path)

/-- An outside world with the given probe in which `save`, `populate` and
`unlinkSync` end as given, the two lookups do not throw and `res.sendFile` is
`expressSendFile`; the module lives in `/app/backend/routes`. -/
def sampleEffects (probe : String → ProbeCallback) (save populate unlink : Option JsError) :
    Effects :=
  { ffprobe := probe
    save := fun _ => save
    populate := fun _ => populate
    findById := fun _ => none
    findByIdAndDelete := fun _ => none
    unlinkSync := fun _ => unlink
    sendFile := expressSendFile
    newId := "t1"
    __dirname := "/app/backend/routes" }

/-- An upload as the receiver hands it over. -/
def sampleFile : UploadedFile := ⟨"uploads/audio/a.mp3", "a.mp3"⟩

/-- User `u1` posting `sampleFile`. -/
def sampleUpload : AuthedRequest := ⟨"u1", "", some "hello", some sampleFile⟩

/-- Storage holding the uploaded file, and an empty record store. -/
def sampleWorld : World := ⟨["uploads/audio/a.mp3"], []⟩

/-- The tweet a successful ingestion of scenario C stores. -/
def sampleTweet : Tweet :=
  ⟨"t1", "hello", "u1", some ⟨"/uploads/audio/a.mp3", .fin 60, .fin 2097152, "mp3"⟩, true⟩

/-- Storage and record store after a successful ingestion of scenario C, with
the file where `tweets.js` looks for it. -/
def storedWorld : World := ⟨["/app/uploads/audio/a.mp3"], [sampleTweet]⟩

/-- Storage in which a file whose name starts with a dot lies in the audio
directory. -/
def dotfileWorld : World := ⟨["/app/uploads/audio/.hidden.mp3"], []⟩

/-! ## The validator -/

theorem JsNum.gt_fin_iff (d : JsNum) (b : ℚ) :
    JsNum.gt d (.fin b) = true ↔ d = .posInf ∨ ∃ q, d = .fin q ∧ b < q := by
  cases d <;> simp [JsNum.gt]

theorem JsNum.le_fin_iff (d : JsNum) (b : ℚ) :
    JsNum.le d (.fin b) = true ↔ d = .negInf ∨ ∃ q, d = .fin q ∧ q ≤ b := by
  cases d <;> simp [JsNum.le]

theorem JsNum.not_gt_of_le (a b : JsNum) (h : JsNum.le a b = true) : JsNum.gt a b = false := by
  cases a <;> cases b <;> simp_all [JsNum.le, JsNum.gt]

/-- C2: when the probe succeeds and reports a duration greater than 300
seconds, `validateAudioFile` rejects with the duration error whatever the size
is, also a size above 104857600 bytes; in particular it does not reject with
the size error. -/
theorem validateAudioFile_duration_first (ffprobe : String → ProbeCallback) (filePath : String)
    (hprobe : (ffprobe filePath).err = none)
    (hdur : JsNum.gt (ffprobe filePath).metadata.format.duration (.fin 300) = true) :
    validateAudioFile ffprobe filePath = .error ⟨"Audio duration cannot exceed 5 minutes"⟩
    ∧ validateAudioFile ffprobe filePath ≠ .error ⟨"Audio file size cannot exceed 100MB"⟩ := by
  have h : validateAudioFile ffprobe filePath
      = .error ⟨"Audio duration cannot exceed 5 minutes"⟩ := by
    simp [validateAudioFile, validateCallback, hprobe, hdur]
  rw [h]
  exact ⟨rfl, by simp⟩

/-- Scenario A: duration 310.4 s, size 50 MiB, format mp3, and the same
duration with a size of 150 MiB. -/
theorem validateAudioFile_duration_first_witness :
    (validateAudioFile (probeOk (.fin (1552 / 5)) (.fin 52428800) "mp3") "a.mp3"
        = .error ⟨"Audio duration cannot exceed 5 minutes"⟩
      ∧ validateAudioFile (probeOk (.fin (1552 / 5)) (.fin 52428800) "mp3") "a.mp3"
        ≠ .error ⟨"Audio file size cannot exceed 100MB"⟩)
    ∧ (validateAudioFile (probeOk (.fin (1552 / 5)) (.fin 157286400) "mp3") "a.mp3"
        = .error ⟨"Audio duration cannot exceed 5 minutes"⟩
      ∧ validateAudioFile (probeOk (.fin (1552 / 5)) (.fin 157286400) "mp3") "a.mp3"
        ≠ .error ⟨"Audio file size cannot exceed 100MB"⟩) :=
  ⟨validateAudioFile_duration_first _ "a.mp3" rfl (by simp [probeOk, JsNum.gt]; norm_num),
   validateAudioFile_duration_first _ "a.mp3" rfl (by simp [probeOk, JsNum.gt]; norm_num)⟩

/-- C3: when the probe succeeds with a duration `<= 300` and a size
`<= 104857600`, `validateAudioFile` resolves; the size and the format name are
returned unchanged and the duration is `Math.round` of the probed one, which
for a finite duration `q` is the integer `n` with `n - 1/2 <= q < n + 1/2`
(the nearest integer, a half going up). -/
theorem validateAudioFile_accepts (ffprobe : String → ProbeCallback) (filePath : String)
    (hprobe : (ffprobe filePath).err = none)
    (hdur : JsNum.le (ffprobe filePath).metadata.format.duration (.fin 300) = true)
    (hsize : JsNum.le (ffprobe filePath).metadata.format.size (.fin 104857600) = true) :
    (∃ info, validateAudioFile ffprobe filePath = .ok info
      ∧ info.duration = Math.round (ffprobe filePath).metadata.format.duration
      ∧ info.size = (ffprobe filePath).metadata.format.size
      ∧ info.mimeType = (ffprobe filePath).metadata.format.format_name)
    ∧ (∀ q : ℚ, (ffprobe filePath).metadata.format.duration = .fin q →
        ∃ n : ℤ, Math.round (ffprobe filePath).metadata.format.duration = .fin n
          ∧ (n : ℚ) - 1 / 2 ≤ q ∧ q < n + 1 / 2) := by
  constructor
  · have h1 := JsNum.not_gt_of_le _ _ hdur
    have h2 := JsNum.not_gt_of_le _ _ hsize
    have e : (100 * 1024 * 1024 : ℚ) = 104857600 := by norm_num
    refine ⟨⟨Math.round (ffprobe filePath).metadata.format.duration,
      (ffprobe filePath).metadata.format.size,
      (ffprobe filePath).metadata.format.format_name⟩, ?_, rfl, rfl, rfl⟩
    simp [validateAudioFile, validateCallback, hprobe, h1, h2, e]
  · intro q hq
    refine ⟨⌊q + 1 / 2⌋, by rw [hq]; rfl, ?_, ?_⟩
    · have := Int.floor_le (q + 1 / 2)
      linarith
    · have := Int.lt_floor_add_one (q + 1 / 2)
      linarith

/-- Scenario C (duration 59.9, size 2097152, format mp3 gives duration 60) and
the boundary values 300 and 104857600: both are accepted. -/
theorem validateAudioFile_accepts_witness :
    validateAudioFile (probeOk (.fin (599 / 10)) (.fin 2097152) "mp3") "a.mp3"
      = .ok ⟨.fin 60, .fin 2097152, "mp3"⟩
    ∧ validateAudioFile (probeOk (.fin 300) (.fin 104857600) "mp3") "a.mp3"
      = .ok ⟨.fin 300, .fin 104857600, "mp3"⟩ := by
  have round1 : Math.round (.fin (599 / 10)) = .fin 60 := by
    simp only [Math.round]
    norm_num [Int.floor_eq_iff]
  have round2 : Math.round (.fin 300) = .fin 300 := by
    simp only [Math.round]
    norm_num [Int.floor_eq_iff]
  constructor
  · obtain ⟨info, h, hd, hs, hm⟩ :=
      (validateAudioFile_accepts (probeOk (.fin (599 / 10)) (.fin 2097152) "mp3") "a.mp3" rfl
        (by simp [probeOk, JsNum.le]; norm_num) (by simp [probeOk, JsNum.le]; norm_num)).1
    rw [h]
    cases info
    simp only [probeOk] at hd hs hm
    simp_all
  · obtain ⟨info, h, hd, hs, hm⟩ :=
      (validateAudioFile_accepts (probeOk (.fin 300) (.fin 104857600) "mp3") "a.mp3" rfl
        (by simp [probeOk, JsNum.le]) (by simp [probeOk, JsNum.le])).1
    rw [h]
    cases info
    simp only [probeOk] at hd hs hm
    simp_all

/-- C4: when the probe succeeds with a duration `<= 300` and a size greater
than 104857600 = 100 * 1024 * 1024 bytes, `validateAudioFile` rejects with the
size error. -/
theorem validateAudioFile_size_exceeded (ffprobe : String → ProbeCallback) (filePath : String)
    (hprobe : (ffprobe filePath).err = none)
    (hdur : JsNum.le (ffprobe filePath).metadata.format.duration (.fin 300) = true)
    (hsize : JsNum.gt (ffprobe filePath).metadata.format.size (.fin 104857600) = true) :
    validateAudioFile ffprobe filePath = .error ⟨"Audio file size cannot exceed 100MB"⟩
    ∧ (104857600 : ℚ) = 100 * 1024 * 1024 := by
  have h1 := JsNum.not_gt_of_le _ _ hdur
  refine ⟨?_, by norm_num⟩
  have h2 : JsNum.gt (ffprobe filePath).metadata.format.size (.fin (100 * 1024 * 1024)) = true := by
    rw [← hsize]; norm_num
  simp [validateAudioFile, validateCallback, hprobe, h1, h2]

/-- Scenario B: duration 120.0 s, size 150 MiB. -/
theorem validateAudioFile_size_exceeded_witness :
    validateAudioFile (probeOk (.fin 120) (.fin 157286400) "mp3") "b.mp3"
      = .error ⟨"Audio file size cannot exceed 100MB"⟩
    ∧ (104857600 : ℚ) = 100 * 1024 * 1024 :=
  validateAudioFile_size_exceeded _ "b.mp3" rfl (by simp [probeOk, JsNum.le]; norm_num)
    (by simp [probeOk, JsNum.gt]; norm_num)

/-- C9: whenever `ffprobe` calls back with an error, whatever the error and
whatever metadata comes with it, `validateAudioFile` rejects with the one error
'Invalid audio file': not a duration error, not a size error, not an
acceptance. -/
theorem validateAudioFile_probe_error (ffprobe : String → ProbeCallback) (filePath : String)
    (e : JsError) (hprobe : (ffprobe filePath).err = some e) :
    validateAudioFile ffprobe filePath = .error ⟨"Invalid audio file"⟩ := by
  simp [validateAudioFile, validateCallback, hprobe]

/-- A probe error arriving together with metadata of an over-long, over-sized
file, and one arriving with acceptable metadata. -/
theorem validateAudioFile_probe_error_witness :
    validateAudioFile (fun _ => ⟨some ⟨"ENOENT"⟩, ⟨⟨.fin 400, .fin 999999999, "mp3"⟩⟩⟩) "c.mp3"
      = .error ⟨"Invalid audio file"⟩
    ∧ validateAudioFile (fun _ => ⟨some ⟨""⟩, ⟨⟨.fin 10, .fin 10, "mp3"⟩⟩⟩) "c.mp3"
      = .error ⟨"Invalid audio file"⟩ :=
  ⟨validateAudioFile_probe_error _ "c.mp3" ⟨"ENOENT"⟩ rfl,
   validateAudioFile_probe_error _ "c.mp3" ⟨""⟩ rfl⟩

/-! ## Paths -/

theorem splitSlash_ne_nil (p : List Char) : splitSlash p ≠ [] := by
  cases p with
  | nil => simp [splitSlash]
  | cons c cs =>
    unfold splitSlash
    split
    · simp
    · split <;> simp

theorem splitSlash_append (a b : List Char) :
    splitSlash (a ++ '/' :: b) = splitSlash a ++ splitSlash b := by
  induction a with
  | nil => simp [splitSlash]
  | cons c cs ih =>
    by_cases hc : c = '/'
    · simp [splitSlash, hc, ih]
    · have hne := splitSlash_ne_nil cs
      have e : splitSlash (c :: (cs ++ '/' :: b))
          = (match splitSlash (cs ++ '/' :: b) with
            | [] => [[c]]
            | s :: ss => (c :: s) :: ss) := by
        simp [splitSlash, hc]
      have e2 : splitSlash (c :: cs)
          = (match splitSlash cs with
            | [] => [[c]]
            | s :: ss => (c :: s) :: ss) := by
        simp [splitSlash, hc]
      rw [List.cons_append, e, e2, ih]
      cases hs : splitSlash cs with
      | nil => exact absurd hs hne
      | cons s ss => simp

theorem normalizeStep_nil (allow : Bool) (res : List (List Char)) :
    normalizeStep allow res [] = res := by
  simp [normalizeStep]

/-- A doubled `/` inside a path does not change what `normalizeString` keeps. -/
theorem normalizeString_double_slash (a b : List Char) (allow : Bool) :
    normalizeString (a ++ '/' :: '/' :: b) allow = normalizeString (a ++ '/' :: b) allow := by
  unfold normalizeString
  rw [splitSlash_append a ('/' :: b), splitSlash_append a b]
  have h : splitSlash ('/' :: b) = [] :: splitSlash b := by simp [splitSlash]
  rw [h, List.foldl_append, List.foldl_append, List.foldl_cons, normalizeStep_nil]

/-- A doubled `/` between two non-empty parts does not change the normal form. -/
theorem normalize_double_slash (a b : List Char) (ha : a ≠ []) (hb : b ≠ []) :
    normalize (a ++ '/' :: '/' :: b) = normalize (a ++ '/' :: b) := by
  have hh : (a ++ '/' :: '/' :: b).head? = (a ++ '/' :: b).head? := by
    cases a with
    | nil => exact absurd rfl ha
    | cons c cs => rfl
  have hl : (a ++ '/' :: '/' :: b).getLast? = (a ++ '/' :: b).getLast? := by
    have e1 : a ++ '/' :: '/' :: b = (a ++ ['/', '/']) ++ b := by simp
    have e2 : a ++ '/' :: b = (a ++ ['/']) ++ b := by simp
    rw [e1, e2, List.getLast?_append_of_ne_nil _ hb, List.getLast?_append_of_ne_nil _ hb]
  have n1 : a ++ '/' :: '/' :: b ≠ [] := by simp
  have n2 : a ++ '/' :: b ≠ [] := by simp
  simp only [normalize, n1, n2, if_false, hh, hl, normalizeString_double_slash]

/-- The model of `path.join` on the paths of a deployment in `/app/backend/routes`,
and on a filename that climbs out of its directory. -/
theorem path_join_samples :
    path.join ["/app/backend/routes", "..", "..", "/uploads/audio/a.mp3"]
      = "/app/uploads/audio/a.mp3"
    ∧ path.join ["/app/backend/routes", "..", "..", "uploads", "audio", "a.mp3"]
      = "/app/uploads/audio/a.mp3"
    ∧ path.join ["x", "..", "..", "uploads", "audio", "../b/"] = "../uploads/b/" := by
  decide

/-- The path `DELETE /:tweetId` removes for the url `"/uploads/audio/" + filename`
is the path `GET /audio/:filename` checks for the same, non-empty, filename. -/
theorem join_url_eq_join_filename (dirname filename : String) (hf : filename ≠ "") :
    path.join [dirname, "..", "..", "/uploads/audio/" ++ filename]
      = path.join [dirname, "..", "..", "uploads", "audio", filename] := by
  have hfd : filename.data ≠ [] := by
    intro h
    apply hf
    cases filename
    simp_all
  have hu : ("/uploads/audio/" ++ filename) ≠ "" := by
    intro h
    have := congrArg String.data h
    simp [String.data_append] at this
  have hd2 : (".." : String) ≠ "" := by decide
  have h3 : ("uploads" : String) ≠ "" := by decide
  have h4 : ("audio" : String) ≠ "" := by decide
  have key : ∀ a : List Char, a ≠ [] →
      normalize (a ++ '/' :: ("/uploads/audio/" ++ filename).data)
        = normalize (a ++ '/' :: ("uploads/audio/".data ++ filename.data)) := by
    intro a ha
    have e : ("/uploads/audio/" ++ filename).data
        = '/' :: ("uploads/audio/".data ++ filename.data) := by
      rw [String.data_append]; rfl
    rw [e]
    exact normalize_double_slash a _ ha (by simp [hfd])
  by_cases hd : dirname = ""
  · subst hd
    have k := congrArg String.mk (key ("../..".data) (by decide))
    simp only [path.join, List.filter, hd2, hu, h3, h4, hf, ne_eq, not_true_eq_false,
      not_false_eq_true, decide_True, decide_False, List.map, glue]
    simpa using k
  · have hdd : dirname.data ≠ [] := by
      intro h
      apply hd
      cases dirname
      simp_all
    have k := congrArg String.mk (key (dirname.data ++ "/../..".data) (by simp [hdd]))
    simp only [path.join, List.filter, hd, hd2, hu, h3, h4, hf, ne_eq, not_true_eq_false,
      not_false_eq_true, decide_True, decide_False, List.map, glue]
    simpa using k

/-! ## The handlers -/

theorem round_scenarioC : Math.round (.fin (599 / 10)) = .fin 60 := by
  simp only [Math.round]
  norm_num [Int.floor_eq_iff]

theorem validate_scenarioC (path : String) :
    validateAudioFile (probeOk (.fin (599 / 10)) (.fin 2097152) "mp3") path
      = .ok ⟨.fin 60, .fin 2097152, "mp3"⟩ := by
  simp [validateAudioFile, validateCallback, probeOk, JsNum.gt, round_scenarioC]
  norm_num

theorem validate_scenarioA (path : String) :
    validateAudioFile (probeOk (.fin (1552 / 5)) (.fin 52428800) "mp3") path
      = .error ⟨"Audio duration cannot exceed 5 minutes"⟩ := by
  simp [validateAudioFile, validateCallback, probeOk, JsNum.gt]
  norm_num

/-- C6: when `req.file` is set, the validator accepts with `audioInfo`, and
`save` and `populate` do not throw, `POST /audio` answers 201 with the stored
tweet; the tweet is in the record store, has `isAudioTweet = true` and an
`audioFile` with url `"/uploads/audio/" + req.file.filename` and with the
validator's duration, size and format; file storage is left as it was. -/
theorem postAudio_success (fx : Effects) (w : World) (req : AuthedRequest) (file : UploadedFile)
    (audioInfo : AudioInfo)
    (hfile : req.file = some file)
    (hvalid : validateAudioFile fx.ffprobe file.path = .ok audioInfo)
    (hsave : fx.save (newAudioTweet fx req file audioInfo) = none)
    (hpopulate : fx.populate (newAudioTweet fx req file audioInfo) = none) :
    ∃ tweet : Tweet,
      (postAudio fx w req).2 = .responded 201 (.tweet tweet)
      ∧ (postAudio fx w req).1.tweets = w.tweets ++ [tweet]
      ∧ tweet.isAudioTweet = true
      ∧ tweet.audioFile = some ⟨"/uploads/audio/" ++ file.filename, audioInfo.duration,
          audioInfo.size, audioInfo.mimeType⟩
      ∧ (postAudio fx w req).1.files = w.files := by
  refine ⟨newAudioTweet fx req file audioInfo, ?_, ?_, rfl, rfl, ?_⟩ <;>
    simp [postAudio, postAudioTry, hfile, hvalid, hsave, hpopulate, World.saved]

/-- Scenario C: probe duration 59.9, size 2097152, format mp3; the stored
attachment has duration 60, size 2097152, mimeType mp3 and the file stays. -/
theorem postAudio_success_witness :
    ∃ tweet : Tweet,
      (postAudio (sampleEffects (probeOk (.fin (599 / 10)) (.fin 2097152) "mp3") none none none)
          sampleWorld sampleUpload).2 = .responded 201 (.tweet tweet)
      ∧ (postAudio (sampleEffects (probeOk (.fin (599 / 10)) (.fin 2097152) "mp3") none none none)
          sampleWorld sampleUpload).1.tweets = sampleWorld.tweets ++ [tweet]
      ∧ tweet.isAudioTweet = true
      ∧ tweet.audioFile = some ⟨"/uploads/audio/" ++ sampleFile.filename, .fin 60,
          .fin 2097152, "mp3"⟩
      ∧ (postAudio (sampleEffects (probeOk (.fin (599 / 10)) (.fin 2097152) "mp3") none none none)
          sampleWorld sampleUpload).1.files = sampleWorld.files :=
  postAudio_success (sampleEffects (probeOk (.fin (599 / 10)) (.fin 2097152) "mp3") none none none)
    sampleWorld sampleUpload sampleFile ⟨.fin 60, .fin 2097152, "mp3"⟩ rfl
    (validate_scenarioC _) rfl rfl

/-- C7: when the tweet exists and the requester is not its author,
`DELETE /:tweetId` leaves the record store and file storage exactly as they
were, so the record is still there and every file that existed still exists,
and (the lookup not throwing) it answers 403. -/
theorem deleteTweet_non_author (fx : Effects) (w : World) (req : AuthedRequest) (tweet : Tweet)
    (hexists : w.findById req.tweetId = some tweet)
    (hother : req.userId ≠ tweet.author) :
    (deleteTweet fx w req).1 = w
    ∧ tweet ∈ (deleteTweet fx w req).1.tweets
    ∧ (∀ p, w.existsSync p = true → (deleteTweet fx w req).1.existsSync p = true)
    ∧ (fx.findById req.tweetId = none →
        (deleteTweet fx w req).2
          = .responded 403 (.message "Not authorized to delete this tweet")) := by
  have hne : tweet.author ≠ req.userId := fun h => hother h.symm
  have hw : (deleteTweet fx w req).1 = w := by
    unfold deleteTweet
    cases fx.findById req.tweetId <;> simp [hexists, hne]
  have hmem : tweet ∈ w.tweets := by
    unfold World.findById at hexists
    exact List.mem_of_find?_eq_some hexists
  refine ⟨hw, by rw [hw]; exact hmem, by rw [hw]; exact fun _ h => h, ?_⟩
  intro hfind
  simp [deleteTweet, hfind, hexists, hne]

/-- User `u2` asks to delete the audio tweet of `u1`: 403, nothing changes. -/
theorem deleteTweet_non_author_witness :
    (deleteTweet (sampleEffects (probeOk (.fin 1) (.fin 1) "mp3") none none none) storedWorld
        ⟨"u2", "t1", none, none⟩).1 = storedWorld
    ∧ (deleteTweet (sampleEffects (probeOk (.fin 1) (.fin 1) "mp3") none none none) storedWorld
        ⟨"u2", "t1", none, none⟩).2
      = .responded 403 (.message "Not authorized to delete this tweet") :=
  have h := deleteTweet_non_author
    (sampleEffects (probeOk (.fin 1) (.fin 1) "mp3") none none none)
    storedWorld ⟨"u2", "t1", none, none⟩ sampleTweet
    (by simp [World.findById, storedWorld, sampleTweet]) (by decide)
  ⟨h.1, h.2.2.2 rfl⟩

/-- C10, counterexample: the file `.hidden.mp3` exists at the storage location
derived from the filename, yet the request is answered 404 and the file is not
served: `res.sendFile` refuses a name that starts with a dot. -/
theorem getAudio_existing_dotfile_not_served :
    path.join ["/app/backend/routes", "..", "..", "uploads", "audio", ".hidden.mp3"]
      ∈ dotfileWorld.files
    ∧ getAudio (sampleEffects (probeOk (.fin 1) (.fin 1) "mp3") none none none) dotfileWorld
        ⟨none, none, [], ".hidden.mp3"⟩ = .responded 404 .errorPage
    ∧ getAudio (sampleEffects (probeOk (.fin 1) (.fin 1) "mp3") none none none) dotfileWorld
        ⟨none, none, [], ".hidden.mp3"⟩
      ≠ .responded 200
          (.file (path.join ["/app/backend/routes", "..", "..", "uploads", "audio",
            ".hidden.mp3"])) := by
  decide

/-- C10, amended: `GET /audio/:filename` performs no authorization. Two requests
with the same filename and the same other headers get the same outcome on the
same storage whatever identity or credentials they carry. When no file exists at
`path.join(__dirname, '..', '..', 'uploads', 'audio', filename)` the answer is
404 'Audio file not found'; when one exists the outcome is that of
`res.sendFile` on that path; so a file body is sent only if the file exists. -/
theorem getAudio_no_authorization (fx : Effects) (w : World) (r1 r2 : Request)
    (hname : r1.filename = r2.filename) (hheaders : r1.headers = r2.headers) :
    getAudio fx w r1 = getAudio fx w r2
    ∧ (path.join [fx.__dirname, "..", "..", "uploads", "audio", r1.filename] ∉ w.files →
        getAudio fx w r1 = .responded 404 (.message "Audio file not found"))
    ∧ (path.join [fx.__dirname, "..", "..", "uploads", "audio", r1.filename] ∈ w.files →
        getAudio fx w r1
          = fx.sendFile (path.join [fx.__dirname, "..", "..", "uploads", "audio", r1.filename])
              r1.headers)
    ∧ (∀ status served, getAudio fx w r1 = .responded status (.file served) →
        path.join [fx.__dirname, "..", "..", "uploads", "audio", r1.filename] ∈ w.files) := by
  refine ⟨by simp [getAudio, hname, hheaders], ?_, ?_, ?_⟩
  · intro h
    simp [getAudio, World.existsSync, h]
  · intro h
    simp [getAudio, World.existsSync, h]
  · intro status served hserved
    by_contra h
    simp [getAudio, World.existsSync, h] at hserved

/-- An anonymous request and one by a logged-in user for the same stored
file: both are served it; and both get 404 for a file that is not there. -/
theorem getAudio_no_authorization_witness :
    (getAudio (sampleEffects (probeOk (.fin 1) (.fin 1) "mp3") none none none) storedWorld
        ⟨none, none, [], "a.mp3"⟩
      = getAudio (sampleEffects (probeOk (.fin 1) (.fin 1) "mp3") none none none) storedWorld
        ⟨some "u2", some "Bearer xyz", [], "a.mp3"⟩
      ∧ getAudio (sampleEffects (probeOk (.fin 1) (.fin 1) "mp3") none none none) storedWorld
          ⟨none, none, [], "a.mp3"⟩
        = expressSendFile "/app/uploads/audio/a.mp3" [])
    ∧ (getAudio (sampleEffects (probeOk (.fin 1) (.fin 1) "mp3") none none none) storedWorld
        ⟨none, none, [], "b.mp3"⟩
      = getAudio (sampleEffects (probeOk (.fin 1) (.fin 1) "mp3") none none none) storedWorld
        ⟨some "u2", some "Bearer xyz", [], "b.mp3"⟩
      ∧ getAudio (sampleEffects (probeOk (.fin 1) (.fin 1) "mp3") none none none) storedWorld
          ⟨none, none, [], "b.mp3"⟩
        = .responded 404 (.message "Audio file not found")) :=
  have h := getAudio_no_authorization
    (sampleEffects (probeOk (.fin 1) (.fin 1) "mp3") none none none)
    storedWorld ⟨none, none, [], "a.mp3"⟩ ⟨some "u2", some "Bearer xyz", [], "a.mp3"⟩ rfl rfl
  have g := getAudio_no_authorization
    (sampleEffects (probeOk (.fin 1) (.fin 1) "mp3") none none none)
    storedWorld ⟨none, none, [], "b.mp3"⟩ ⟨some "u2", some "Bearer xyz", [], "b.mp3"⟩ rfl rfl
  ⟨⟨h.1, h.2.2.1 (by decide)⟩, ⟨g.1, g.2.1 (by decide)⟩⟩

theorem deleteAudioFile_ok (fx : Effects) (w w1 : World) (tweet : Tweet) (audioFile : AudioFile)
    (haudio : tweet.audioFile = some audioFile) (hurl : audioFile.url ≠ "")
    (hok : deleteAudioFile fx w tweet = .ok w1) :
    path.join [fx.__dirname, "..", "..", audioFile.url] ∉ w1.files ∧ w1.tweets = w.tweets := by
  unfold deleteAudioFile at hok
  simp only [haudio, hurl, if_false] at hok
  by_cases hex : w.existsSync (path.join [fx.__dirname, "..", "..", audioFile.url]) = true
  · simp only [hex, if_true] at hok
    cases hu : fx.unlinkSync (path.join [fx.__dirname, "..", "..", audioFile.url]) with
    | some e => simp [hu] at hok
    | none =>
      simp only [hu, Except.ok.injEq] at hok
      subst hok
      simp [World.unlinked]
  · simp only [hex] at hok
    simp only [Bool.false_eq_true, if_false, Except.ok.injEq] at hok
    subst hok
    simpa [World.existsSync] using hex

theorem deleteTweet_success (fx : Effects) (w : World) (req : AuthedRequest) (tweet : Tweet)
    (hexists : w.findById req.tweetId = some tweet)
    (hsuccess : (deleteTweet fx w req).2
      = .responded 200 (.message "Tweet deleted successfully")) :
    tweet.author = req.userId
    ∧ ∃ w1, deleteAudioFile fx w tweet = .ok w1
        ∧ (deleteTweet fx w req).1 = w1.deleted req.tweetId := by
  unfold deleteTweet at hsuccess ⊢
  cases hf : fx.findById req.tweetId with
  | some e => simp [hf] at hsuccess
  | none =>
    by_cases ha : tweet.author = req.userId
    · refine ⟨ha, ?_⟩
      cases hd : deleteAudioFile fx w tweet with
      | error e => simp [hf, hexists, ha, hd] at hsuccess
      | ok w1 =>
        cases hfd : fx.findByIdAndDelete req.tweetId with
        | some e => simp [hf, hexists, ha, hd, hfd] at hsuccess
        | none => exact ⟨w1, rfl, by simp [hexists, ha, hd, hfd]⟩
    · simp [hf, hexists, ha] at hsuccess

/-- C8: for a stored tweet whose `audioFile.url` is `"/uploads/audio/" + filename`
(the url a successful ingestion writes; the filename of a route parameter is
not empty), whenever `DELETE /:tweetId` reports success - which only happens
for the author - no tweet with that id is left in the record store and every
later `GET /audio/:filename` for that filename answers 404; the path the delete
handler removes is the path the retrieve handler checks. -/
theorem delete_then_retrieve (fx : Effects) (w : World) (req : AuthedRequest) (tweet : Tweet)
    (audioFile : AudioFile) (filename : String)
    (hname : filename ≠ "")
    (hexists : w.findById req.tweetId = some tweet)
    (haudio : tweet.audioFile = some audioFile)
    (hurl : audioFile.url = "/uploads/audio/" ++ filename)
    (hsuccess : (deleteTweet fx w req).2
      = .responded 200 (.message "Tweet deleted successfully")) :
    tweet.author = req.userId
    ∧ (∀ t ∈ (deleteTweet fx w req).1.tweets, t._id ≠ req.tweetId)
    ∧ (deleteTweet fx w req).1.findById req.tweetId = none
    ∧ path.join [fx.__dirname, "..", "..", audioFile.url]
        = path.join [fx.__dirname, "..", "..", "uploads", "audio", filename]
    ∧ (∀ (later : Effects) (r : Request), later.__dirname = fx.__dirname →
        r.filename = filename →
        getAudio later (deleteTweet fx w req).1 r
          = .responded 404 (.message "Audio file not found")) := by
  obtain ⟨ha, w1, hd, hw⟩ := deleteTweet_success fx w req tweet hexists hsuccess
  have hne : audioFile.url ≠ "" := by
    rw [hurl]
    intro h
    have := congrArg String.data h
    simp [String.data_append] at this
  obtain ⟨hgone, _⟩ := deleteAudioFile_ok fx w w1 tweet audioFile haudio hne hd
  have hpath : path.join [fx.__dirname, "..", "..", audioFile.url]
      = path.join [fx.__dirname, "..", "..", "uploads", "audio", filename] := by
    rw [hurl]
    exact join_url_eq_join_filename fx.__dirname filename hname
  have hall : ∀ t ∈ (deleteTweet fx w req).1.tweets, t._id ≠ req.tweetId := by
    intro t ht
    rw [hw] at ht
    simpa [World.deleted] using (List.mem_filter.mp ht).2
  refine ⟨ha, hall, ?_, hpath, ?_⟩
  · unfold World.findById
    rw [List.find?_eq_none]
    intro t ht
    simpa using hall t ht
  · intro later r hdir hr
    rw [hpath] at hgone
    have hfiles : (deleteTweet fx w req).1.files = w1.files := by rw [hw]; rfl
    simp [getAudio, World.existsSync, hdir, hr, hfiles, hgone]

/-- User `u1` deletes the audio tweet `t1` stored with `a.mp3`: the record is
gone and a later request for `a.mp3` answers 404. -/
theorem delete_then_retrieve_witness :
    (deleteTweet (sampleEffects (probeOk (.fin 1) (.fin 1) "mp3") none none none) storedWorld
        ⟨"u1", "t1", none, none⟩).1.findById "t1" = none
    ∧ getAudio (sampleEffects (probeOk (.fin 1) (.fin 1) "mp3") none none none)
        (deleteTweet (sampleEffects (probeOk (.fin 1) (.fin 1) "mp3") none none none) storedWorld
          ⟨"u1", "t1", none, none⟩).1 ⟨none, none, [], "a.mp3"⟩
      = .responded 404 (.message "Audio file not found") :=
  have h := delete_then_retrieve (sampleEffects (probeOk (.fin 1) (.fin 1) "mp3") none none none)
    storedWorld ⟨"u1", "t1", none, none⟩ sampleTweet
    ⟨"/uploads/audio/a.mp3", .fin 60, .fin 2097152, "mp3"⟩ "a.mp3" (by decide)
    (by simp [World.findById, storedWorld, sampleTweet]) rfl (by decide) (by decide)
  ⟨h.2.2.1, h.2.2.2.2 _ ⟨none, none, [], "a.mp3"⟩ rfl rfl⟩

/-- C1 at the failing run: scenario C is accepted and saved, then `populate`
throws. The `catch` block removes the uploaded file and answers 400, and the
saved tweet, whose url names that file, stays in the record store. -/
theorem postAudio_populate_failure :
    postAudio (sampleEffects (probeOk (.fin (599 / 10)) (.fin 2097152) "mp3") none
        (some ⟨"populate failed"⟩) none) sampleWorld sampleUpload
      = (⟨[], [sampleTweet]⟩, .responded 400 (.message "populate failed"))
    ∧ sampleFile.path ∈ sampleWorld.files
    ∧ sampleFile.path ∉ (postAudio (sampleEffects (probeOk (.fin (599 / 10)) (.fin 2097152) "mp3")
        none (some ⟨"populate failed"⟩) none) sampleWorld sampleUpload).1.files
    ∧ ∃ t ∈ (postAudio (sampleEffects (probeOk (.fin (599 / 10)) (.fin 2097152) "mp3")
        none (some ⟨"populate failed"⟩) none) sampleWorld sampleUpload).1.tweets,
        t.audioFile.map AudioFile.url = some ("/uploads/audio/" ++ sampleFile.filename) := by
  have h : postAudio (sampleEffects (probeOk (.fin (599 / 10)) (.fin 2097152) "mp3") none
        (some ⟨"populate failed"⟩) none) sampleWorld sampleUpload
      = (⟨[], [sampleTweet]⟩, .responded 400 (.message "populate failed")) := by
    simp [postAudio, postAudioTry, postAudioCatch, sampleEffects, sampleUpload, sampleFile,
      sampleWorld, sampleTweet, validate_scenarioC, newAudioTweet, World.saved, World.unlinked,
      World.existsSync, messageOr]
  rw [h]
  refine ⟨rfl, by decide, by simp, sampleTweet, by simp, by decide⟩

/-- What does hold on the failure paths of `POST /audio` that come before the
record is stored (the validator rejects, or `save` throws), when `unlinkSync`
does not throw: the answer is 400 with the error's message, the uploaded file
is gone and the record store is as it was. -/
theorem postAudio_failure_before_save (fx : Effects) (w : World) (req : AuthedRequest)
    (file : UploadedFile) (e : JsError)
    (hfile : req.file = some file)
    (hfail : validateAudioFile fx.ffprobe file.path = .error e
      ∨ ∃ audioInfo, validateAudioFile fx.ffprobe file.path = .ok audioInfo
          ∧ fx.save (newAudioTweet fx req file audioInfo) = some e)
    (hunlink : fx.unlinkSync file.path = none) :
    (postAudio fx w req).2 = .responded 400 (.message (messageOr e))
    ∧ file.path ∉ (postAudio fx w req).1.files
    ∧ (postAudio fx w req).1.tweets = w.tweets := by
  have htry : postAudioTry fx w req file = (w, .error e) := by
    rcases hfail with h | ⟨info, h, hs⟩
    · simp [postAudioTry, h]
    · simp [postAudioTry, h, hs]
  by_cases hex : file.path ∈ w.files
  · simp [postAudio, hfile, htry, postAudioCatch, World.existsSync, hex, hunlink, World.unlinked]
  · simp [postAudio, hfile, htry, postAudioCatch, World.existsSync, hex]

/-- C5 at the failing run: scenario A is rejected for its duration and the
compensating `unlinkSync` throws. The lines that log and answer 400 with the
original message are never reached: the exception leaves the handler, the run
does not end with the response carrying the duration error, and the file is
still in storage. -/
theorem postAudio_unlink_throw_masks :
    (postAudioTry (sampleEffects (probeOk (.fin (1552 / 5)) (.fin 52428800) "mp3") none none
        (some ⟨"EPERM: operation not permitted, unlink"⟩)) sampleWorld sampleUpload sampleFile).2
      = .error ⟨"Audio duration cannot exceed 5 minutes"⟩
    ∧ postAudio (sampleEffects (probeOk (.fin (1552 / 5)) (.fin 52428800) "mp3") none none
        (some ⟨"EPERM: operation not permitted, unlink"⟩)) sampleWorld sampleUpload
      = (sampleWorld, .uncaught ⟨"EPERM: operation not permitted, unlink"⟩)
    ∧ (postAudio (sampleEffects (probeOk (.fin (1552 / 5)) (.fin 52428800) "mp3") none none
        (some ⟨"EPERM: operation not permitted, unlink"⟩)) sampleWorld sampleUpload).2
      ≠ .responded 400 (.message "Audio duration cannot exceed 5 minutes") := by
  have h : postAudio (sampleEffects (probeOk (.fin (1552 / 5)) (.fin 52428800) "mp3") none none
        (some ⟨"EPERM: operation not permitted, unlink"⟩)) sampleWorld sampleUpload
      = (sampleWorld, .uncaught ⟨"EPERM: operation not permitted, unlink"⟩) := by
    simp [postAudio, postAudioTry, postAudioCatch, sampleEffects, sampleUpload, sampleFile,
      sampleWorld, validate_scenarioA, World.existsSync]
  rw [h]
  refine ⟨?_, rfl, by simp⟩
  simp [postAudioTry, sampleEffects, sampleFile, validate_scenarioA]

/-- The three ways the `catch` block of `POST /audio` ends once the `try` block
has thrown `error`: the file is already absent, `unlinkSync` returns, or
`unlinkSync` throws. Only the first two reach the line that answers 400 with
the original message. -/
theorem postAudio_catch_outcome (fx : Effects) (w w1 : World) (req : AuthedRequest)
    (file : UploadedFile) (error : JsError)
    (hfile : req.file = some file)
    (htry : postAudioTry fx w req file = (w1, .error error)) :
    (w1.existsSync file.path = false →
      postAudio fx w req = (w1, .responded 400 (.message (messageOr error))))
    ∧ (w1.existsSync file.path = true → fx.unlinkSync file.path = none →
      postAudio fx w req
        = (w1.unlinked file.path, .responded 400 (.message (messageOr error))))
    ∧ (∀ thrown, w1.existsSync file.path = true → fx.unlinkSync file.path = some thrown →
      postAudio fx w req = (w1, .uncaught thrown)) := by
  refine ⟨?_, ?_, ?_⟩
  · intro hex
    simp [postAudio, hfile, htry, postAudioCatch, hex]
  · intro hex hu
    simp [postAudio, hfile, htry, postAudioCatch, hex, hu]
  · intro thrown hex hu
    simp [postAudio, hfile, htry, postAudioCatch, hex, hu]

end TwitterClone
